import Mathlib

/-!
# Verification of the coexist realtime-sync layer

Shallow embedding of the synchronization code of the `coexist` app
(message collection transform, daily-photo sweeper, optimistic update
tracker, pagination flag, debounced batch writer, typing indicator,
daily-photo mutual-reveal gate, input sanitizer), together with proofs
of the corresponding specification claims.

Records are modelled as Lean structures; Firebase subtree snapshots as
`Option` of association lists keyed by the generated entry id; JS `Map`s
as functions into `Option`; promise outcomes as `Except`.
-/

namespace Coexist

/-! ## Messages and the ChatRoom collection transform

Source: `src/components/ChatRoom.js` lines 30–37.  A snapshot of
`messages/{coupleId}` is either `null` or a finite map from generated
message id to a record `{text, userId, timestamp, imageData?}` (the shape
written by `sendMessage`).  The transform is
`Object.entries(val).map(([id, msg]) => ({id, ...msg}))
  .sort((a, b) => a.timestamp - b.timestamp)`. -/

/-- A stored message record (shape written by `sendMessage`); the id is the
map key, not a field of the record. -/
structure Msg where
  text : String
  userId : String
  timestamp : Int
  imageData : Option String
deriving DecidableEq, Repr

/-- An element of the emitted local list: `{id, ...msg}`. -/
structure EMsg where
  id : String
  text : String
  userId : String
  timestamp : Int
  imageData : Option String
deriving DecidableEq, Repr

/-- `([id, msg]) => ({id, ...msg})`. -/
def mkEMsg (p : String × Msg) : EMsg :=
  { id := p.1, text := p.2.text, userId := p.2.userId,
    timestamp := p.2.timestamp, imageData := p.2.imageData }

/-- The comparator `(a, b) => a.timestamp - b.timestamp` as an order:
`a` may precede `b` iff `a.timestamp ≤ b.timestamp`. -/
def tsLE (a b : EMsg) : Prop := a.timestamp ≤ b.timestamp

instance : DecidableRel tsLE := fun a b => Int.decLe a.timestamp b.timestamp

instance : IsTotal EMsg tsLE := ⟨fun a b => Int.le_total a.timestamp b.timestamp⟩

instance : IsTrans EMsg tsLE := ⟨fun _ _ _ h1 h2 => Int.le_trans h1 h2⟩

/-- The ChatRoom messages transform (`ChatRoom.js:30-37`): `null ↦ []`,
otherwise entries mapped to `{id, ...msg}` and sorted by timestamp
(JS `sort` with a numeric comparator, modelled by a stable sort). -/
def transformChat : Option (List (String × Msg)) → List EMsg
  | none => []
  | some m => List.insertionSort tsLE (m.map mkEMsg)

@[simp] theorem mkEMsg_id (p : String × Msg) : (mkEMsg p).id = p.1 := rfl

theorem transformChat_map_id_perm (m : List (String × Msg)) :
    List.Perm ((transformChat (some m)).map EMsg.id) (m.map Prod.fst) := by
  have h : List.Perm (List.insertionSort tsLE (m.map mkEMsg)) (m.map mkEMsg) :=
    List.perm_insertionSort tsLE (m.map mkEMsg)
  have h2 := h.map EMsg.id
  simp only [transformChat, List.map_map] at h2 ⊢
  exact h2

/-- **C1.** For every raw snapshot delivered to the ChatRoom message
transform, the emitted list has exactly one element per key of the map
(its ids are a permutation of the keys, hence `N` unique ids for `N`
entries), the empty list is emitted for a `null` snapshot, and the output
is pairwise non-decreasing in the `timestamp` field. -/
theorem transformChat_dedup_sorted (m : List (String × Msg))
    (h : (m.map Prod.fst).Nodup) :
    transformChat none = [] ∧
    List.Perm ((transformChat (some m)).map EMsg.id) (m.map Prod.fst) ∧
    (transformChat (some m)).length = m.length ∧
    ((transformChat (some m)).map EMsg.id).Nodup ∧
    List.Pairwise tsLE (transformChat (some m)) := by
  refine ⟨rfl, transformChat_map_id_perm m, ?_, ?_, ?_⟩
  · have := (List.perm_insertionSort tsLE (m.map mkEMsg)).length_eq
    simp only [transformChat, List.length_map] at this ⊢
    exact this
  · exact ((transformChat_map_id_perm m).symm.nodup h)
  · exact List.sorted_insertionSort tsLE (m.map mkEMsg)

/-- A concrete two-entry snapshot used to witness C1. -/
def snapC1 : List (String × Msg) :=
  [("k2", { text := "hi", userId := "A", timestamp := 5, imageData := none }),
   ("k1", { text := "yo", userId := "B", timestamp := 3, imageData := none })]

/-- Witness for C1 at the concrete two-entry snapshot `snapC1`. -/
theorem transformChat_dedup_sorted_witness :
    ((snapC1.map Prod.fst).Nodup) ∧
    (transformChat none = [] ∧
     List.Perm ((transformChat (some snapC1)).map EMsg.id)
       (snapC1.map Prod.fst) ∧
     (transformChat (some snapC1)).length = snapC1.length ∧
     ((transformChat (some snapC1)).map EMsg.id).Nodup ∧
     List.Pairwise tsLE (transformChat (some snapC1))) :=
  ⟨by decide, transformChat_dedup_sorted snapC1 (by decide)⟩

/-! ## The daily-photo sweeper (`src/utils/cleanup.js`)

`cleanupOldPhotos` fetches the `dailyPhotos` subtree once, computes
`oneDayAgo = Date.now() - 24*60*60*1000`, and deletes every entry that
passes the guard `photo && photo.timestamp && photo.timestamp < oneDayAgo`;
the deletions run concurrently via `Promise.all`, and the whole body is
wrapped in `try/catch` that only logs (`console.warn`) on failure.

Map values are modelled as `Option Photo` (the `photo &&` null check) and
the `timestamp` field as `Option Int` (the field may be absent); JS number
truthiness makes a present timestamp `0` falsy. -/

/-- A stored daily-photo record (shape written by `handleUpload` in
`DailyPhotos.js`), with `timestamp` possibly absent. -/
structure Photo where
  uid : String
  photoURL : String
  timestamp : Option Int
deriving DecidableEq, Repr

/-- One day in milliseconds: `24 * 60 * 60 * 1000`. -/
def oneDayMs : Int := 24 * 60 * 60 * 1000

/-- The deletion guard `photo && photo.timestamp && photo.timestamp < oneDayAgo`
(`cleanup.js:15`): the record must be non-null, its `timestamp` present and
truthy (a JS number is falsy exactly when it is `0`), and below the cutoff. -/
def shouldDeletePhoto (cutoff : Int) (photo : Option Photo) : Bool :=
  match photo with
  | none => false
  | some p =>
    match p.timestamp with
    | none => false
    | some t => t ≠ 0 && t < cutoff

/-- `Promise.all` over unit promises: the first rejection, else fulfilled. -/
def promiseAll {ε : Type} : List (Except ε Unit) → Except ε Unit
  | [] => Except.ok ()
  | Except.ok () :: rest => promiseAll rest
  | Except.error e :: _ => Except.error e

/-- The remote `dailyPhotos` subtree after the deletions of one successful
sweep fetched at time `now`: exactly the entries the guard does not select
remain (`cleanup.js:13-20`). -/
def remoteAfterSweep (now : Int) (photos : List (String × Option Photo)) :
    List (String × Option Photo) :=
  photos.filter (fun kv => !(shouldDeletePhoto (now - oneDayMs) kv.2))

/-- The body of `cleanupOldPhotos` before the `catch` (`cleanup.js:5-20`),
with the fetch outcome and the per-key delete outcomes injected: propagates
the fetch error, returns the deleted keys on success, and fails if any
deletion rejects (`Promise.all`). -/
def cleanupAttempt (now : Int)
    (fetch : Except String (Option (List (String × Option Photo))))
    (rm : String → Except String Unit) : Except String (List String) :=
  match fetch with
  | Except.error e => Except.error e
  | Except.ok none => Except.ok []
  | Except.ok (some photos) =>
    let victims :=
      (photos.filter (fun kv => shouldDeletePhoto (now - oneDayMs) kv.2)).map
        Prod.fst
    match promiseAll (victims.map rm) with
    | Except.ok () => Except.ok victims
    | Except.error e => Except.error e

/-- `cleanupOldPhotos` (`cleanup.js:4-26`): the body wrapped in `try/catch`;
the result is the (always fulfilled) promise outcome paired with the
`console.warn` log entry, `none` when nothing was caught. -/
def cleanupOldPhotos (now : Int)
    (fetch : Except String (Option (List (String × Option Photo))))
    (rm : String → Except String Unit) : Except String Unit × Option String :=
  match cleanupAttempt now fetch rm with
  | Except.ok _ => (Except.ok (), none)
  | Except.error e => (Except.ok (), some e)

/-- The concrete epoch-timestamp photo used against C2. -/
def photoZero : Photo := { uid := "u", photoURL := "x", timestamp := some 0 }

/-- A photo 25 hours old at `now = 2 * oneDayMs`. -/
def photoOld : Photo :=
  { uid := "u", photoURL := "o", timestamp := some (oneDayMs - 3600000) }

/-- A photo 1 hour old at `now = 2 * oneDayMs`. -/
def photoNew : Photo :=
  { uid := "v", photoURL := "n", timestamp := some (2 * oneDayMs - 3600000) }

/-- The concrete two-entry `dailyPhotos` subtree used to witness C2. -/
def snapC2 : List (String × Option Photo) :=
  [("old", some photoOld), ("new", some photoNew)]

/-- **C2 counterexample.** The claim "every entry whose timestamp is less
than now − 24h has been removed after one sweep" is false: a record whose
`timestamp` field is `0` is falsy under the guard
`photo && photo.timestamp && ...`, so it survives the sweep even though
`0 <` the cutoff. Concretely, at `now = 2 * oneDayMs` the one-entry subtree
holding a photo with `timestamp = 0` is returned unchanged. -/
theorem sweep_zero_timestamp_kept :
    ¬ (∀ (now : Int) (photos : List (String × Option Photo))
        (k : String) (p : Photo) (t : Int),
        (k, some p) ∈ photos → p.timestamp = some t → t < now - oneDayMs →
        (k, some p) ∉ remoteAfterSweep now photos) := by
  intro hclaim
  have hmem : ("a", some photoZero) ∈
      remoteAfterSweep (2 * oneDayMs) [("a", some photoZero)] := by
    decide
  exact hclaim (2 * oneDayMs) [("a", some photoZero)] "a" photoZero 0
    (by decide) rfl (by decide) hmem

/-- **C2 (amended).** After one successful sweep fetched at `now`, an entry
of the subtree survives exactly when the deletion guard rejects it: every
entry holding a record with a present, nonzero timestamp strictly below
`now − 24h` is removed, and every other entry — timestamp at or above the
cutoff, or missing, or `0`, or a null record — is left in place. -/
theorem sweep_expiry_correct (now : Int)
    (photos : List (String × Option Photo)) (k : String) (v : Option Photo)
    (hmem : (k, v) ∈ photos) :
    ((k, v) ∈ remoteAfterSweep now photos ↔
      shouldDeletePhoto (now - oneDayMs) v = false) ∧
    (∀ p t, v = some p → p.timestamp = some t → t ≠ 0 → t < now - oneDayMs →
      (k, v) ∉ remoteAfterSweep now photos) ∧
    (∀ p t, v = some p → p.timestamp = some t → now - oneDayMs ≤ t →
      (k, v) ∈ remoteAfterSweep now photos) := by
  constructor
  · constructor
    · intro hin
      have := List.of_mem_filter hin
      simpa using this
    · intro hguard
      exact List.mem_filter.2 ⟨hmem, by simp [hguard]⟩
  constructor
  · intro p t hv ht htne hlt hin
    have := List.of_mem_filter hin
    simp [shouldDeletePhoto, hv, ht, htne, hlt] at this
  · intro p t hv ht hge
    refine List.mem_filter.2 ⟨hmem, ?_⟩
    simp [shouldDeletePhoto, hv, ht]
    omega

/-- Witness for the amended C2 at the concrete subtree `snapC2` fetched at
`now = 2 * oneDayMs`: membership of the 25-hours-old entry in the swept
subtree is equivalent to the guard rejecting it (both sides are false). -/
theorem sweep_expiry_correct_witness :
    ("old", some photoOld) ∈ snapC2 ∧
    ((("old", some photoOld) ∈ remoteAfterSweep (2 * oneDayMs) snapC2) ↔
      shouldDeletePhoto (2 * oneDayMs - oneDayMs) (some photoOld) = false) :=
  ⟨by decide, (sweep_expiry_correct (2 * oneDayMs) snapC2 "old"
    (some photoOld) (by decide)).1⟩

/-- **C7.** The sweeper never propagates an exception: whatever the outcome
of the subtree fetch and of each individual deletion, `cleanupOldPhotos`
resolves normally (`Except.ok ()`), and its `console.warn` log is empty
exactly when the underlying attempt succeeded. -/
theorem cleanup_never_throws (now : Int)
    (fetch : Except String (Option (List (String × Option Photo))))
    (rm : String → Except String Unit) :
    (cleanupOldPhotos now fetch rm).1 = Except.ok () ∧
    ((cleanupOldPhotos now fetch rm).2 = none ↔
      (cleanupAttempt now fetch rm).isOk = true) := by
  unfold cleanupOldPhotos
  cases cleanupAttempt now fetch rm with
  | ok v => simp [Except.isOk, Except.toBool]
  | error e => simp [Except.isOk, Except.toBool]

/-! ## Daily-photo mutual reveal (`src/components/DailyPhotos.js`)

The component state holds `myPhoto` and `partnerPhoto` (each `null` or a
photo record found in the `dailyPhotos` snapshot).  Line 812 defines
`bothUploaded = myPhoto && partnerPhoto`, and the partner panel
(lines 901-916) renders `<img src={partnerPhoto.photoURL}>` exactly under
the condition `partnerPhoto && bothUploaded`, otherwise a locked
placeholder. -/

/-- `bothUploaded = myPhoto && partnerPhoto` (`DailyPhotos.js:812`). -/
def bothUploaded (myPhoto partnerPhoto : Option Photo) : Bool :=
  myPhoto.isSome && partnerPhoto.isSome

/-- The image URL the partner panel exposes to the rendered view
(`DailyPhotos.js:901-916`): `partnerPhoto.photoURL` when
`partnerPhoto && bothUploaded`, nothing otherwise. -/
def partnerPanelImage (myPhoto partnerPhoto : Option Photo) : Option String :=
  match partnerPhoto, bothUploaded myPhoto partnerPhoto with
  | some p, true => some p.photoURL
  | _, _ => none

/-- **C3.** Mutual-reveal invariant of the daily-photo view: while the local
participant's own photo is absent, the partner's image URL is never exposed
(`partnerPanelImage none partner = none`), and in general the partner's
image is exposed exactly when both the local photo and the partner photo
exist. -/
theorem partner_photo_mutual_reveal (myPhoto partnerPhoto : Option Photo) :
    partnerPanelImage none partnerPhoto = none ∧
    (partnerPanelImage myPhoto partnerPhoto).isSome =
      (myPhoto.isSome && partnerPhoto.isSome) := by
  constructor
  · cases partnerPhoto <;> rfl
  · cases myPhoto <;> cases partnerPhoto <;> rfl

/-! ## Optimistic mutation tracker (`src/utils/db.js:146-173`)

`useOptimisticUpdate.performUpdate(key, optimisticData, updateFn)` stores
`optimisticData` in the `pending` JS `Map` under `key`, awaits `updateFn()`,
and deletes the key from the map on success as well as in the `catch` branch,
re-throwing the original error.  The `Map` is modelled as a function into
`Option`, the awaited outcome as an `Except` value. -/

/-- `Map.prototype.set` on the function model of a JS `Map`. -/
def mapSet {κ δ : Type} [DecidableEq κ] (m : κ → Option δ) (k : κ) (v : δ) :
    κ → Option δ :=
  fun k2 => if k2 = k then some v else m k2

/-- `Map.prototype.delete` on the function model of a JS `Map`. -/
def mapDelete {κ δ : Type} [DecidableEq κ] (m : κ → Option δ) (k : κ) :
    κ → Option δ :=
  fun k2 => if k2 = k then none else m k2

/-- `performUpdate` (`db.js:149-170`): insert the optimistic entry, run the
remote operation, and delete the entry both on fulfilment and in the catch
branch, where the original error is re-thrown.  Returns the final pending
overlay and the outcome surfaced to the caller. -/
def performUpdate {κ δ ε : Type} [DecidableEq κ] (pending : κ → Option δ)
    (key : κ) (optimisticData : δ) (updateFn : Except ε Unit) :
    (κ → Option δ) × Except ε Unit :=
  let withOptimistic := mapSet pending key optimisticData
  match updateFn with
  | Except.ok () => (mapDelete withOptimistic key, Except.ok ())
  | Except.error e => (mapDelete withOptimistic key, Except.error e)

/-- **C4.** For every pending overlay, key and remote outcome,
`performUpdate` leaves no residual overlay entry for the key (the optimistic
entry inserted at the start has been deleted), keeps every other key's entry
untouched, and surfaces exactly the remote outcome to the caller — the same
error on rejection, no error on fulfilment. -/
theorem performUpdate_rollback {κ δ ε : Type} [DecidableEq κ]
    (pending : κ → Option δ) (key : κ) (optimisticData : δ)
    (updateFn : Except ε Unit) :
    (performUpdate pending key optimisticData updateFn).1 key = none ∧
    (performUpdate pending key optimisticData updateFn).2 = updateFn ∧
    ∀ k2, k2 ≠ key →
      (performUpdate pending key optimisticData updateFn).1 k2 = pending k2 := by
  refine ⟨?_, ?_, ?_⟩
  · cases updateFn with
    | ok u => cases u; simp [performUpdate, mapDelete]
    | error e => simp [performUpdate, mapDelete]
  · cases updateFn with
    | ok u => cases u; rfl
    | error e => rfl
  · intro k2 hne
    cases updateFn with
    | ok u => cases u; simp [performUpdate, mapDelete, mapSet, hne]
    | error e => simp [performUpdate, mapDelete, mapSet, hne]

/-- Witness for C4: a rejecting remote operation at the key `"m1"` over an
initially empty overlay leaves no entry for `"m1"`, leaves `"m2"` untouched,
and re-raises the error `"network"`. -/
theorem performUpdate_rollback_witness :
    ((performUpdate (fun _ : String => (none : Option String)) "m1" "draft"
        (Except.error "network")).1 "m1" = none) ∧
    ((performUpdate (fun _ : String => (none : Option String)) "m1" "draft"
        (Except.error "network")).2 = Except.error "network") ∧
    ((performUpdate (fun _ : String => (none : Option String)) "m1" "draft"
        (Except.error "network")).1 "m2" = none) :=
  ⟨(performUpdate_rollback (fun _ : String => (none : Option String)) "m1"
      "draft" (Except.error "network")).1,
   (performUpdate_rollback (fun _ : String => (none : Option String)) "m1"
      "draft" (Except.error "network")).2.1,
   (performUpdate_rollback (fun _ : String => (none : Option String)) "m1"
      "draft" (Except.error "network")).2.2 "m2" (by decide)⟩

/-! ## Pagination flag (`src/unnamed/part_000`, `transformMessages`)

The paginated chat variant's transform (lines 231-242) returns `[]` for a
`null` snapshot *without* touching `hasMoreMessages`; for a non-null
snapshot it calls `setHasMoreMessages(false)` when
`messageArray.length < messageLimit` and `setHasMoreMessages(true)`
otherwise, then returns the array sorted by timestamp.  The `setState`
call is modelled as an `Option Bool` (`none` = not called). -/

/-- `transformMessages` (`part_000:231-242`): the emitted list paired with
the `setHasMoreMessages` call it performs, if any. -/
def transformMessages (messageLimit : Nat)
    (val : Option (List (String × Msg))) : List EMsg × Option Bool :=
  match val with
  | none => ([], none)
  | some m =>
    let messageArray := m.map mkEMsg
    let flagSet := if messageArray.length < messageLimit then some false
      else some true
    (List.insertionSort tsLE messageArray, flagSet)

/-- The value of the `hasMoreMessages` state after a snapshot has gone
through `transformMessages`, starting from the previous value `prev`. -/
def hasMoreAfter (messageLimit : Nat) (val : Option (List (String × Msg)))
    (prev : Bool) : Bool :=
  ((transformMessages messageLimit val).2).getD prev

/-- **C5 counterexample.** The claim "after each snapshot delivered under
limit `L`, `hasMore` is false exactly when the snapshot has fewer than `L`
entries, and true otherwise" is false: `transformMessages` returns early on
a `null` snapshot without calling `setHasMoreMessages`, so with limit 20, a
`null` snapshot (0 entries, `0 < 20`) and previous value `true` the flag
stays `true` although the claim demands `false`. -/
theorem hasMore_null_snapshot_kept :
    ¬ (∀ (messageLimit : Nat) (val : Option (List (String × Msg)))
        (prev : Bool),
        hasMoreAfter messageLimit val prev =
          !(decide ((val.getD []).length < messageLimit))) := by
  intro hclaim
  have h := hclaim 20 none true
  simp [hasMoreAfter, transformMessages] at h

/-- **C5 (amended).** After each *non-null* snapshot delivered under limit
`L`, `hasMoreMessages` is set to `false` exactly when the number of entries
is strictly below `L` and to `true` otherwise; a `null` snapshot leaves the
flag at its previous value. -/
theorem hasMore_below_limit (messageLimit : Nat)
    (m : List (String × Msg)) (prev : Bool) :
    hasMoreAfter messageLimit (some m) prev =
      !(decide (m.length < messageLimit)) ∧
    hasMoreAfter messageLimit none prev = prev := by
  constructor
  · by_cases h : m.length < messageLimit <;>
      simp [hasMoreAfter, transformMessages, h]
  · rfl

/-! ## Debounced batch writer (`src/utils/useFirebase.js:234-270`)

`useDebouncedWrite`'s timer callback snapshots the pending map into
`writes`, then calls `pendingWrites.current.clear()` *before* awaiting
`Promise.all` of the `set` calls; a rejection is only logged and nothing is
re-inserted into the map.  The flush is modelled two ways: as the sequence
of intermediate states the callback passes through (pending contents,
writes issued, writes settled), and as a function from the batch and the
per-path write outcomes to the final pending map and the logged error. -/

/-- One intermediate state of the flush callback: the contents of the
pending map, how many writes the flush has issued, how many have settled. -/
structure FlushStep where
  pending : List (String × String)
  issued : Nat
  settled : Nat
deriving DecidableEq, Repr

/-- The states `useDebouncedWrite`'s timer callback passes through
(`useFirebase.js:245-258`): before the callback, after
`pendingWrites.current.clear()` (writes issued, none settled yet), and
after `await Promise.all` (all settled). -/
def debouncedFlushTrace (batch : List (String × String)) : List FlushStep :=
  [{ pending := batch, issued := 0, settled := 0 },
   { pending := [], issued := batch.length, settled := 0 },
   { pending := [], issued := batch.length, settled := batch.length }]

/-- The property C5 claims of the flush: whenever the pending batch is
empty, every issued write has already settled. -/
def clearedOnlyAfterSettle (batch : List (String × String)) : Prop :=
  ∀ s ∈ debouncedFlushTrace batch, s.pending = [] → s.settled = s.issued

/-- The flush outcome (`useFirebase.js:245-258`): the final pending map —
cleared before the writes are even awaited, and never refilled — and the
logged error, the first rejection of the `Promise.all` if any. -/
def debouncedFlush (batch : List (String × String))
    (outcome : String → Except String Unit) :
    List (String × String) × Option String :=
  match promiseAll (batch.map (fun w => outcome w.1)) with
  | Except.ok () => ([], none)
  | Except.error e => ([], some e)

/-- **C6 counterexample.** The claim "the in-memory pending batch is
cleared only after all of the flush's remote writes settle" is false for
`useDebouncedWrite`: with the one-item batch `[("canvasStrokes/s1", "p")]`
the callback reaches a state whose pending map is empty while none of its
one issued write has settled (`pendingWrites.current.clear()` runs before
`await Promise.all`). -/
theorem debouncedFlush_clears_early :
    ¬ clearedOnlyAfterSettle [("canvasStrokes/s1", "p")] := by
  unfold clearedOnlyAfterSettle
  decide

/-- **C6 (amended).** When `useDebouncedWrite`'s flush runs, the pending
batch is snapshotted and cleared immediately — the trace contains the state
with an empty pending map, all writes issued and none settled — and for
every combination of write outcomes the batch ends empty, so failed items
are not automatically re-queued for a later flush. -/
theorem debouncedFlush_fire_and_forget (batch : List (String × String))
    (outcome : String → Except String Unit) :
    (debouncedFlush batch outcome).1 = [] ∧
    (debouncedFlushTrace batch)[1]? =
      some { pending := [], issued := batch.length, settled := 0 } := by
  constructor
  · unfold debouncedFlush
    split <;> rfl
  · rfl

/-! ## Typing indicator (`useFirebase.js:184-231`, `TypingIndicator.js:27-66`)

`setTyping(true)` writes `{timestamp: Date.now(), username: userId}` under
`typing/{channel}/{userId}`; `setTyping(false)` removes that key.
`useTypingHandler.handleTyping` calls `setTyping(true)`, clears any armed
timeout and arms a new one of 3000 ms whose callback calls
`setTyping(false)`; `stopTyping` clears the timeout and calls
`setTyping(false)`.  The remote `typing` tree is modelled as a function
from `(channel, userId)` to an optional flag; the armed timeout as the
optional absolute deadline. -/

/-- A typing flag record `{timestamp, username}`. -/
structure TypingFlag where
  timestamp : Nat
  username : String
deriving DecidableEq, Repr

/-- The remote `typing` subtree: `(channel, userId) ↦` optional flag. -/
def TypingStore : Type := String × String → Option TypingFlag

/-- Local state of one typing handler: the remote tree plus the armed
timeout's absolute deadline, if any. -/
structure TypingState where
  store : TypingStore
  timerDeadline : Option Nat

/-- `setTyping` (`useFirebase.js:206-224`): write the flag with the current
time under `typing/{channel}/{userId}` when `isTyping`, remove that key
otherwise. -/
def setTyping (channel userId : String) (isTyping : Bool) (now : Nat)
    (st : TypingStore) : TypingStore :=
  fun k =>
    if k = (channel, userId) then
      if isTyping then some { timestamp := now, username := userId } else none
    else st k

/-- `handleTyping` (`TypingIndicator.js:31-43`): `setTyping(true)`, cancel
any pending timeout and arm a fresh 3000 ms one. -/
def handleTyping (channel userId : String) (now : Nat) (s : TypingState) :
    TypingState :=
  { store := setTyping channel userId true now s.store,
    timerDeadline := some (now + 3000) }

/-- Expiry of the armed timeout (`TypingIndicator.js:39-41`): its callback
runs `setTyping(false)`. -/
def typingTimerExpire (channel userId : String) (now : Nat)
    (s : TypingState) : TypingState :=
  { store := setTyping channel userId false now s.store,
    timerDeadline := none }

/-- `stopTyping` (`TypingIndicator.js:45-52`): clear the timeout, then
`setTyping(false)`. -/
def stopTyping (channel userId : String) (now : Nat) (s : TypingState) :
    TypingState :=
  { store := setTyping channel userId false now s.store,
    timerDeadline := none }

/-- **C8.** In any state: `handleTyping` at time `t` writes a flag carrying
the timestamp `t` under the `(channel, userId)` key and arms a 3000 ms
timer; a further `handleTyping` at `t2` before expiry cancels the old
deadline and re-arms it at `t2 + 3000`; expiry of the timer clears the
flag; and `stopTyping` removes the flag immediately and cancels any armed
timer. -/
theorem typing_handler_semantics (channel userId : String) (t t2 : Nat)
    (s : TypingState) :
    ((handleTyping channel userId t s).store (channel, userId) =
      some { timestamp := t, username := userId }) ∧
    ((handleTyping channel userId t s).timerDeadline = some (t + 3000)) ∧
    ((handleTyping channel userId t2 (handleTyping channel userId t s)
      ).timerDeadline = some (t2 + 3000)) ∧
    ((typingTimerExpire channel userId t2 (handleTyping channel userId t s)
      ).store (channel, userId) = none) ∧
    ((stopTyping channel userId t2 s).store (channel, userId) = none) ∧
    ((stopTyping channel userId t2 s).timerDeadline = none) := by
  refine ⟨?_, rfl, rfl, ?_, ?_, rfl⟩ <;>
    simp [handleTyping, typingTimerExpire, stopTyping, setTyping]

/-! ## Typing users emitted to the view (`useFirebase.js:188-204, 226-229`)

On every snapshot of `typing/{channel}`, the listener filters out the
current user's own entry and rebuilds the map, and `isAnyoneTyping` is
`Object.keys(typingUsers).length > 0`. -/

/-- The `typingUsers` map emitted for a snapshot of `typing/{channel}`:
`Object.entries(val).filter(([uid]) => uid !== userId)` rebuilt into an
object (`useFirebase.js:195-197`). -/
def typingUsersOf (userId : String) (val : List (String × TypingFlag)) :
    List (String × TypingFlag) :=
  val.filter (fun p => p.1 != userId)

/-- `isAnyoneTyping = Object.keys(typingUsers).length > 0`
(`useFirebase.js:226-228`). -/
def isAnyoneTyping (userId : String) (val : List (String × TypingFlag)) :
    Bool :=
  decide (0 < (typingUsersOf userId val).length)

/-- **C9.** For every snapshot of the `typing/{channel}` subtree, the
emitted `typingUsers` map contains no entry keyed by the local `userId`,
and `isAnyoneTyping` is true exactly when some entry keyed by a user other
than the local one is present. -/
theorem typingUsers_excludes_self (userId : String)
    (val : List (String × TypingFlag)) :
    ((typingUsersOf userId val).all (fun p => p.1 != userId) = true) ∧
    ((typingUsersOf userId val).lookup userId = none) ∧
    (isAnyoneTyping userId val = val.any (fun p => p.1 != userId)) := by
  refine ⟨?_, ?_, ?_⟩
  · simp [typingUsersOf, List.all_eq_true]
  · induction val with
    | nil => rfl
    | cons h2 t ih =>
      cases h2 with
      | mk a b =>
        by_cases he : a = userId
        · simpa [typingUsersOf, he] using ih
        · have ha : (userId == a) = false := by
            simp only [beq_eq_false_iff_ne, ne_eq]
            intro hc
            exact he hc.symm
          simp only [typingUsersOf] at ih ⊢
          simp [List.filter_cons, he, List.lookup, ha, ih]
  · induction val with
    | nil => rfl
    | cons h2 t ih =>
      by_cases he : h2.1 = userId
      all_goals simp [isAnyoneTyping, typingUsersOf, List.filter_cons, he,
        List.any_cons] at ih ⊢
      all_goals simp [ih]

/-! ## Input sanitizer (`src/utils/helpers.js:2-11`)

`sanitizeInput(input, maxLength = 1000)` returns `''` for a non-string
input; otherwise it trims the string, slices it to `maxLength` characters,
and applies three global replacements with the empty string:
`/[<>]/g`, `/javascript:/gi` and `/on\w+=/gi`.  Strings are modelled as
`List Char` and each regex replacement as a left-to-right scanner that
drops every match; the scanner carries a fuel argument equal to the input
length, which suffices because every step consumes at least one character. -/

/-- A JS value as seen by `typeof input !== 'string'` (`helpers.js:3`):
either a string or anything else. -/
inductive JSInput where
  | jsStr (s : List Char)
  | jsOther
deriving DecidableEq, Repr

/-- Case-insensitive character comparison (the `i` regex flag). -/
def lowerEq (a b : Char) : Bool := a.toLower == b.toLower

/-- Match `pat` case-insensitively at the head of `l`; on success return
the remainder of `l` after the match. -/
def matchCI : List Char → List Char → Option (List Char)
  | [], l => some l
  | _ :: _, [] => none
  | p :: ps, c :: cs => if lowerEq p c then matchCI ps cs else none

/-- A `\w` word character: `[A-Za-z0-9_]`. -/
def isWordChar (c : Char) : Bool := c.isAlphanum || c == '_'

/-- Match the regex `on\w+=` (case-insensitively) at the head of `l`:
`on`, then a nonempty run of word characters, then `=`; on success return
the remainder after the `=`. -/
def matchOnHandler : List Char → Option (List Char)
  | c1 :: c2 :: rest =>
    if lowerEq 'o' c1 && lowerEq 'n' c2 then
      match rest.dropWhile isWordChar with
      | b :: rest2 =>
        if !(rest.takeWhile isWordChar).isEmpty && b == '=' then some rest2
        else none
      | [] => none
    else none
  | _ => none

/-- Global replace-with-empty of a pattern: scan left to right, drop every
match found by `matcher`, keep other characters.  `fuel` bounds the number
of steps; with `fuel = l.length` and a matcher that always consumes at
least one character it never runs out. -/
def scanRemove (matcher : List Char → Option (List Char)) :
    Nat → List Char → List Char
  | 0, l => l
  | _ + 1, [] => []
  | fuel + 1, c :: cs =>
    match matcher (c :: cs) with
    | some rest => scanRemove matcher fuel rest
    | none => c :: scanRemove matcher fuel cs

/-- Characters surviving `/[<>]/g` removal. -/
def angleFree (c : Char) : Bool := !(c == '<' || c == '>')

/-- `.replace(/[<>]/g, '')` (`helpers.js:8`). -/
def removeAngle (l : List Char) : List Char := l.filter angleFree

/-- JS `String.prototype.trim` on the character list model. -/
def jsTrim (l : List Char) : List Char :=
  ((l.dropWhile Char.isWhitespace).reverse.dropWhile Char.isWhitespace).reverse

/-- The pattern of `/javascript:/gi`. -/
def jsProto : List Char := "javascript:".toList

/-- `.replace(/javascript:/gi, '')` (`helpers.js:9`). -/
def removeJS (l : List Char) : List Char :=
  scanRemove (matchCI jsProto) l.length l

/-- `.replace(/on\w+=/gi, '')` (`helpers.js:10`). -/
def removeOnHandlers (l : List Char) : List Char :=
  scanRemove matchOnHandler l.length l

/-- `sanitizeInput` (`helpers.js:2-11`): `''` for a non-string input,
otherwise trim, slice to `maxLength`, then the three removals in order. -/
def sanitizeInput : JSInput → Nat → List Char
  | JSInput.jsOther, _ => []
  | JSInput.jsStr s, maxLength =>
    removeOnHandlers (removeJS (removeAngle ((jsTrim s).take maxLength)))

theorem matchCI_sublist :
    ∀ (pat l r : List Char), matchCI pat l = some r → List.Sublist r l := by
  intro pat
  induction pat with
  | nil =>
    intro l r h
    simp only [matchCI, Option.some_inj] at h
    exact h ▸ List.Sublist.refl l
  | cons p ps ih =>
    intro l r h
    cases l with
    | nil => simp [matchCI] at h
    | cons c cs =>
      simp only [matchCI] at h
      by_cases hl : lowerEq p c = true
      · rw [if_pos hl] at h
        exact (ih cs r h).trans (List.sublist_cons_self c cs)
      · rw [if_neg hl] at h
        cases h

theorem matchOnHandler_sublist :
    ∀ (l r : List Char), matchOnHandler l = some r → List.Sublist r l := by
  intro l r h
  cases l with
  | nil => simp [matchOnHandler] at h
  | cons c1 l1 =>
    cases l1 with
    | nil => simp [matchOnHandler] at h
    | cons c2 rest =>
      simp only [matchOnHandler] at h
      by_cases hon : (lowerEq 'o' c1 && lowerEq 'n' c2) = true
      · rw [if_pos hon] at h
        cases hdp : rest.dropWhile isWordChar with
        | nil => rw [hdp] at h; cases h
        | cons b bs =>
          simp only [hdp] at h
          by_cases hcond : (!(rest.takeWhile isWordChar).isEmpty &&
              b == '=') = true
          · rw [if_pos hcond] at h
            have hbr : List.Sublist bs rest := by
              have h1 : List.Sublist (rest.dropWhile isWordChar) rest :=
                List.dropWhile_sublist isWordChar
              rw [hdp] at h1
              exact (List.sublist_cons_self b bs).trans h1
            have h2 : r = bs := by
              injection h with h3
              exact h3.symm
            subst h2
            exact (hbr.trans (List.sublist_cons_self c2 rest)).trans
              (List.sublist_cons_self c1 (c2 :: rest))
          · rw [if_neg hcond] at h
            cases h
      · rw [if_neg hon] at h
        cases h

theorem scanRemove_sublist (matcher : List Char → Option (List Char))
    (hm : ∀ l r, matcher l = some r → List.Sublist r l) :
    ∀ (fuel : Nat) (l : List Char),
      List.Sublist (scanRemove matcher fuel l) l := by
  intro fuel
  induction fuel with
  | zero => intro l; exact List.Sublist.refl l
  | succ n ih =>
    intro l
    cases l with
    | nil => exact List.Sublist.refl []
    | cons c cs =>
      cases hmc : matcher (c :: cs) with
      | some rest =>
        simp only [scanRemove, hmc]
        exact (ih rest).trans (hm _ _ hmc)
      | none =>
        simp only [scanRemove, hmc]
        exact List.Sublist.cons₂ c (ih cs)

theorem sanitize_sublist_noAngle (maxLength : Nat) (s : List Char) :
    List.Sublist (sanitizeInput (JSInput.jsStr s) maxLength)
      (removeAngle ((jsTrim s).take maxLength)) := by
  have h1 : List.Sublist
      (removeOnHandlers (removeJS (removeAngle ((jsTrim s).take maxLength))))
      (removeJS (removeAngle ((jsTrim s).take maxLength))) :=
    scanRemove_sublist matchOnHandler matchOnHandler_sublist _ _
  have h2 : List.Sublist (removeJS (removeAngle ((jsTrim s).take maxLength)))
      (removeAngle ((jsTrim s).take maxLength)) :=
    scanRemove_sublist (matchCI jsProto) (matchCI_sublist jsProto) _ _
  exact h1.trans h2

/-- **C10.** For every input value and every `maxLength`, `sanitizeInput`
returns the empty string when the input is not a string, and otherwise a
string of length at most `maxLength` that contains neither `<` nor `>`. -/
theorem sanitizeInput_safe (maxLength : Nat) (s : List Char) :
    sanitizeInput JSInput.jsOther maxLength = [] ∧
    (sanitizeInput (JSInput.jsStr s) maxLength).length ≤ maxLength ∧
    ('<' ∉ sanitizeInput (JSInput.jsStr s) maxLength) ∧
    ('>' ∉ sanitizeInput (JSInput.jsStr s) maxLength) := by
  refine ⟨rfl, ?_, ?_, ?_⟩
  · have h1 := (sanitize_sublist_noAngle maxLength s).length_le
    have h2 : (removeAngle ((jsTrim s).take maxLength)).length ≤
        ((jsTrim s).take maxLength).length :=
      (List.filter_sublist _).length_le
    have h3 : ((jsTrim s).take maxLength).length ≤ maxLength :=
      List.length_take_le maxLength (jsTrim s)
    omega
  · intro hmem
    have := (sanitize_sublist_noAngle maxLength s).subset hmem
    have hfa := List.of_mem_filter this
    simp [angleFree] at hfa
  · intro hmem
    have := (sanitize_sublist_noAngle maxLength s).subset hmem
    have hfa := List.of_mem_filter this
    simp [angleFree] at hfa

end Coexist
